import Mathlib

/-!
Shallow embedding of the MCP Qdrant semantic-search server
(dispatcher in the unnamed entry file, QdrantService in src/qdrant.ts,
EmbeddingService in src/embeddings.ts).

Modelling decisions, stated once:
- JavaScript runtime values are the inductive `Value` (JSON values plus
  the distinguished `undefined` produced by destructuring a missing key).
- A JavaScript object is an association list `Obj` whose key update
  (`setKey`) removes any previous binding and appends the new one, so the
  object-literal spread `\x7bcontent, timestamp, ...metadata\x7d` is a left
  fold of `setKey` over the metadata entries: later keys win, as in JS.
- Response envelopes keep the body as the structured object handed to
  JSON.stringify (serialisation itself is not modelled); `isError` is the
  tag the dispatcher sets in its catch block.
- The two external services are an environment `Env`: the embedding
  provider is a fallible function, the vector store network failure is an
  injectable error (`qdrantErr`), and the store-internal similarity
  ranking and scroll order are opaque functions of the stored points.
  The point-storage semantics the store promises (upsert keyed by id,
  exact retrieve, delete, delete-all) are modelled concretely.
- Every client call the dispatcher issues is recorded in a trace of
  `Effect`s, so "the embedding client is reached" and "deleteAll is never
  called" are statements about the trace.
- String truncation uses Lean character counts where the source uses
  UTF-16 code units; the claims quantify over ordinary strings where the
  two agree.
- Numbers are modelled as rationals (no NaN; JS float printing is
  approximated in interpolated messages, which no claim inspects beyond
  the string-id case where the interpolation is exact).
-/

namespace MCPQ

/-- JavaScript runtime values as far as the dispatcher manipulates them. -/
inductive Value where
  | null
  | undefined
  | bool (b : Bool)
  | num (q : ℚ)
  | str (s : String)
  | arr (xs : List Value)
  | obj (fields : List (String × Value))

/-- A JavaScript object as an association list. -/
abbrev Obj := List (String × Value)

/-- Property read: first binding wins (`setKey` keeps keys unique). -/
def getKey : Obj → String → Option Value
  | [], _ => none
  | (k', v) :: rest, k => if k' = k then some v else getKey rest k

/-- Property read with a default for the missing-key case.
`getD o k .undefined` is exactly what destructuring `o.k` yields. -/
def getD (o : Obj) (k : String) (d : Value) : Value :=
  (getKey o k).getD d

/-- Property read on a runtime value (none when it is not an object). -/
def getField (v : Value) (k : String) : Option Value :=
  match v with
  | .obj o => getKey o k
  | _ => none

/-- Property write: drop any earlier binding of `k`, append the new one. -/
def setKey (o : Obj) (k : String) (v : Value) : Obj :=
  o.filter (fun p => p.1 != k) ++ [(k, v)]

/-- Object spread `\x7b...base, ...v\x7d` restricted to the cases the
dispatcher exercises: spreading an object folds its entries in with
later-keys-win semantics; spreading null, undefined or another primitive
contributes no keys (JS string index keys are not modelled; every claim
supplies an object or nothing). -/
def spreadInto (base : Obj) (v : Value) : Obj :=
  match v with
  | .obj m => m.foldl (fun acc kv => setKey acc kv.1 kv.2) base
  | _ => base

/-- JS destructuring default: applied exactly when the value is undefined. -/
def jsDefault (v d : Value) : Value :=
  match v with
  | .undefined => d
  | _ => v

/-- JS truthiness, as tested by `if (!confirm)`. -/
def truthy : Value → Bool
  | .null => false
  | .undefined => false
  | .bool b => b
  | .num q => q != 0
  | .str s => s != ""
  | .arr _ => true
  | .obj _ => true

/-- JS string conversion used by template literals, to the precision the
claims need (exact on strings, booleans, null and undefined). -/
def showVal : Value → String
  | .null => "null"
  | .undefined => "undefined"
  | .bool true => "true"
  | .bool false => "false"
  | .num q => toString q
  | .str s => s
  | .arr _ => ""
  | .obj _ => "[object Object]"

/-- `content.substring(0, 100) + (content.length > 100 ? "..." : "")`
from the store_memory response (part_000 line 237). -/
def jsTruncate (s : String) : String :=
  String.mk (s.toList.take 100) ++ (if s.length > 100 then "..." else "")

/-- `content.substring` applied to a runtime value: only strings have the
method, anything else raises a TypeError. -/
def truncVal : Value → Except String Value
  | .str s => .ok (.str (jsTruncate s))
  | _ => .error "TypeError: substring is not a function"

/-- A stored point in the collection: the dispatcher always mints a string
id, stores the embedding vector and the assembled payload. -/
structure Point where
  id : String
  vector : List ℚ
  payload : Obj

/-- A search hit as the store returns it (id and score are provider data,
payload was stored with with_payload: true). -/
structure ScoredPoint where
  id : Value
  score : ℚ
  payload : Obj

/-- The points of the single collection. -/
abbrev QState := List Point

/-- Collection parameters fixed at creation (size, distance metric). -/
structure CollParams where
  size : ℚ
  distance : String

/-- The collections the Qdrant server knows, by name. -/
abbrev CollState := List (String × CollParams)

/-- One client call crossing the process boundary. -/
inductive Effect where
  | embedCall (input : Value)
  | upsertCall (id : String) (vector : List ℚ) (payload : Obj)
  | searchCall (vector : List ℚ) (lim thr fil : Value)
  | deleteCall (id : Value)
  | retrieveCall (id : Value)
  | scrollCall (lim off : Value)
  | getCollectionCall
  | deleteAllCall
  | getCollectionsCall
  | createCollectionCall (name : String) (size : ℚ)

/-- The external world: embedding provider, vector-store availability and
store-internal query semantics, plus the static configuration. -/
structure Env where
  embed : Value → Except String (List ℚ)
  freshId : String
  now : String
  qdrantErr : Option String
  searchResult : QState → List ℚ → Value → Value → Value → List ScoredPoint
  scrollResult : QState → Value → Value → List Point
  collectionName : String
  model : String
  dims : ℚ
  indexedCount : Value
  segmentsCount : Value
  statusVal : Value

/-- Does a stored point id match the id value handed to retrieve/delete? -/
def idMatches (pid : String) (v : Value) : Bool :=
  match v with
  | .str s => pid == s
  | _ => false

/-- Upsert: insert-or-replace keyed by id (store contract for put). -/
def upsertPoint (st : QState) (id : String) (vec : List ℚ) (payload : Obj) : QState :=
  st.filter (fun p => p.id != id) ++ [⟨id, vec, payload⟩]

namespace QdrantService

/-- qdrant.ts storeMemory: upsert one point, rethrowing client errors. -/
def storeMemory (env : Env) (st : QState) (id : String) (vector : List ℚ)
    (payload : Obj) : Except String QState :=
  match env.qdrantErr with
  | some m => .error m
  | none => .ok (upsertPoint st id vector payload)

/-- qdrant.ts searchSimilar: client.search with the given limit, score
threshold and filter; ranking is the external store computation. -/
def searchSimilar (env : Env) (st : QState) (queryVector : List ℚ)
    (lim thr fil : Value) : Except String (List ScoredPoint) :=
  match env.qdrantErr with
  | some m => .error m
  | none => .ok (env.searchResult st queryVector lim thr fil)

/-- qdrant.ts deleteMemory: delete the point with that id (no error when
absent). -/
def deleteMemory (env : Env) (st : QState) (id : Value) : Except String QState :=
  match env.qdrantErr with
  | some m => .error m
  | none => .ok (st.filter (fun p => !idMatches p.id id))

/-- qdrant.ts getMemory: exact retrieve by id; absence is a sentinel, not
an error. -/
def getMemory (env : Env) (st : QState) (id : Value) :
    Except String (Option Point) :=
  match env.qdrantErr with
  | some m => .error m
  | none => .ok (st.find? (fun p => idMatches p.id id))

/-- qdrant.ts listMemories: client.scroll; page order is the external
store order. -/
def listMemories (env : Env) (st : QState) (lim off : Value) :
    Except String (List Point) :=
  match env.qdrantErr with
  | some m => .error m
  | none => .ok (env.scrollResult st lim off)

/-- qdrant.ts clearAllMemories: delete with the unconditional empty
filter, removing every point. -/
def clearAllMemories (env : Env) (st : QState) : Except String QState :=
  match env.qdrantErr with
  | some m => .error m
  | none => .ok []

/-- qdrant.ts getStats: collection info projected to the reported
fields. -/
def getStats (env : Env) (st : QState) : Except String Value :=
  match env.qdrantErr with
  | some m => .error m
  | none => .ok (.obj [
      ("name", .str env.collectionName),
      ("points_count", .num (st.length : ℚ)),
      ("indexed_vectors_count", env.indexedCount),
      ("segments_count", env.segmentsCount),
      ("status", env.statusVal)])

/-- qdrant.ts createCollection: list existing collections, create only
when no collection with the configured name exists. Returns the new
collection state and the client calls issued. -/
def createCollection (cols : CollState) (name : String) (vectorSize : ℚ) :
    CollState × List Effect :=
  if cols.any (fun c => c.1 == name) then
    (cols, [.getCollectionsCall])
  else
    (cols ++ [(name, ⟨vectorSize, "Cosine"⟩)],
     [.getCollectionsCall, .createCollectionCall name vectorSize])

end QdrantService

/-- Result-item shaping of the search_memory handler (part_000 268-273). -/
def formatSearchItem (sp : ScoredPoint) : Value :=
  .obj [("id", sp.id), ("score", .num sp.score),
        ("content", getD sp.payload "content" .undefined),
        ("metadata", .obj sp.payload)]

/-- Result-item shaping of the list_memories handler (part_000 367-372). -/
def formatListItem (p : Point) : Value :=
  .obj [("id", .str p.id),
        ("content", getD p.payload "content" .undefined),
        ("timestamp", getD p.payload "timestamp" .undefined),
        ("metadata", .obj p.payload)]

/-- The switch body of the CallToolRequestSchema handler: the value the
try block produces (or the exception it raises), the resulting store
state, and the client calls made along the way. -/
def callToolInner (env : Env) (st : QState) (name : String) (args : Obj) :
    Except String Value × QState × List Effect :=
  match name with
  | "store_memory" =>
    let content := getD args "content" .undefined
    let metadata := jsDefault (getD args "metadata" .undefined) (.obj [])
    match env.embed content with
    | .error m => (.error m, st, [.embedCall content])
    | .ok vector =>
      let id := env.freshId
      let payload :=
        spreadInto (setKey (setKey [] "content" content) "timestamp" (.str env.now)) metadata
      match QdrantService.storeMemory env st id vector payload with
      | .error m => (.error m, st, [.embedCall content, .upsertCall id vector payload])
      | .ok st' =>
        match truncVal content with
        | .error m => (.error m, st', [.embedCall content, .upsertCall id vector payload])
        | .ok shown =>
          (.ok (.obj [("success", .bool true),
                      ("message", .str "Memory stored successfully"),
                      ("id", .str id), ("content", shown), ("metadata", metadata)]),
           st', [.embedCall content, .upsertCall id vector payload])
  | "search_memory" =>
    let query := getD args "query" .undefined
    let lim := jsDefault (getD args "limit" .undefined) (.num 5)
    let thr := jsDefault (getD args "threshold" .undefined) (.num (7/10))
    let fil := getD args "filter" .undefined
    match env.embed query with
    | .error m => (.error m, st, [.embedCall query])
    | .ok queryVector =>
      match QdrantService.searchSimilar env st queryVector lim thr fil with
      | .error m => (.error m, st, [.embedCall query, .searchCall queryVector lim thr fil])
      | .ok results =>
        let formatted := results.map formatSearchItem
        (.ok (.obj [("success", .bool true), ("query", query),
                    ("results_count", .num (formatted.length : ℚ)),
                    ("results", .arr formatted)]),
         st, [.embedCall query, .searchCall queryVector lim thr fil])
  | "delete_memory" =>
    let id := getD args "id" .undefined
    match QdrantService.deleteMemory env st id with
    | .error m => (.error m, st, [.deleteCall id])
    | .ok st' =>
      (.ok (.obj [("success", .bool true),
                  ("message", .str ("Memory " ++ showVal id ++ " deleted successfully"))]),
       st', [.deleteCall id])
  | "get_memory" =>
    let id := getD args "id" .undefined
    match QdrantService.getMemory env st id with
    | .error m => (.error m, st, [.retrieveCall id])
    | .ok none =>
      (.ok (.obj [("success", .bool false),
                  ("message", .str ("Memory " ++ showVal id ++ " not found"))]),
       st, [.retrieveCall id])
    | .ok (some p) =>
      (.ok (.obj [("success", .bool true),
                  ("memory", .obj [("id", .str p.id), ("payload", .obj p.payload)])]),
       st, [.retrieveCall id])
  | "list_memories" =>
    let lim := jsDefault (getD args "limit" .undefined) (.num 10)
    let off := getD args "offset" .undefined
    match QdrantService.listMemories env st lim off with
    | .error m => (.error m, st, [.scrollCall lim off])
    | .ok mems =>
      let formatted := mems.map formatListItem
      (.ok (.obj [("success", .bool true),
                  ("count", .num (formatted.length : ℚ)),
                  ("memories", .arr formatted)]),
       st, [.scrollCall lim off])
  | "get_stats" =>
    match QdrantService.getStats env st with
    | .error m => (.error m, st, [.getCollectionCall])
    | .ok stats =>
      (.ok (.obj [("success", .bool true), ("stats", stats),
                  ("embedding_model", .str env.model),
                  ("embedding_dimensions", .num env.dims)]),
       st, [.getCollectionCall])
  | "clear_all_memories" =>
    let confirm := getD args "confirm" .undefined
    if truthy confirm then
      match QdrantService.clearAllMemories env st with
      | .error m => (.error m, st, [.deleteAllCall])
      | .ok st' =>
        (.ok (.obj [("success", .bool true),
                    ("message", .str "All memories have been deleted")]),
         st', [.deleteAllCall])
    else
      (.ok (.obj [("success", .bool false),
                  ("message", .str "You must confirm with confirm=true to delete all memories")]),
       st, [])
  | _ => (.error ("Unknown tool: " ++ name), st, [])

/-- The protocol response: the object serialised into the text content
item, and the isError tag (absent on success, modelled as false). -/
structure Response where
  body : Value
  isError : Bool

/-- The error envelope built by the catch block (part_000 458-476). -/
def errBody (m : String) : Value :=
  .obj [("success", .bool false), ("error", .str m)]

/-- The full CallToolRequestSchema handler: run the switch, catch any
exception into the error-tagged envelope carrying its message. -/
def callTool (env : Env) (st : QState) (name : String) (args : Obj) :
    Response × QState × List Effect :=
  match callToolInner env st name args with
  | (.ok body, st', tr) => (⟨body, false⟩, st', tr)
  | (.error m, st', tr) => (⟨errBody m, true⟩, st', tr)

/-- The seven tools of the catalogue. -/
def toolNames : List String :=
  ["store_memory", "search_memory", "delete_memory", "get_memory",
   "list_memories", "get_stats", "clear_all_memories"]

/-! ### Lemmas about object lookup, key update and spread -/

theorem getKey_append (o1 o2 : Obj) (k : String) :
    getKey (o1 ++ o2) k = (getKey o1 k).or (getKey o2 k) := by
  induction o1 with
  | nil => simp [getKey]
  | cons p rest ih =>
    by_cases h : p.1 = k
    · simp [getKey, h]
    · simp [getKey, h, ih]

theorem getKey_filterOut (o : Obj) (k : String) :
    getKey (o.filter (fun p => p.1 != k)) k = none := by
  induction o with
  | nil => rfl
  | cons p rest ih =>
    obtain ⟨k1, v1⟩ := p
    rw [List.filter_cons]
    by_cases h : k1 = k
    · simp [h, ih]
    · simp [getKey, bne_iff_ne, h, ih]

theorem getKey_filterOut_ne (o : Obj) (k k' : String) (h : k' ≠ k) :
    getKey (o.filter (fun p => p.1 != k)) k' = getKey o k' := by
  induction o with
  | nil => rfl
  | cons p rest ih =>
    obtain ⟨k1, v1⟩ := p
    rw [List.filter_cons]
    by_cases hp : k1 = k
    · have hne2 : ¬(k = k') := fun hk => h hk.symm
      simp [getKey, hp, hne2, ih]
    · by_cases hp' : k1 = k'
      · simp [getKey, bne_iff_ne, hp, hp', h]
      · simp [getKey, bne_iff_ne, hp, hp', ih]

theorem getKey_setKey_self (o : Obj) (k : String) (v : Value) :
    getKey (setKey o k v) k = some v := by
  simp [setKey, getKey_append, getKey_filterOut, getKey]

theorem getKey_setKey_ne (o : Obj) (k k' : String) (v : Value) (h : k' ≠ k) :
    getKey (setKey o k v) k' = getKey o k' := by
  have h2 : ¬(k = k') := fun hk => h hk.symm
  simp [setKey, getKey_append, getKey, h2, getKey_filterOut_ne o k k' h]

/-- Folding key updates over entries not containing `k` leaves lookups of
`k` unchanged. -/
theorem getKey_foldSet_not_mem (m : Obj) (k : String)
    (h : k ∉ m.map Prod.fst) :
    ∀ base : Obj,
      getKey (m.foldl (fun acc kv => setKey acc kv.1 kv.2) base) k = getKey base k := by
  induction m with
  | nil => intro base; rfl
  | cons a rest ih =>
    intro base
    simp only [List.map_cons, List.mem_cons, not_or] at h
    simp only [List.foldl_cons]
    rw [ih h.2, getKey_setKey_ne _ _ _ _ (fun hk => h.1 hk)]

/-- With unique metadata keys, every metadata entry survives the spread
fold with its own value. -/
theorem getKey_foldSet_mem (k : String) (v : Value) :
    ∀ (m : Obj) (base : Obj), (m.map Prod.fst).Nodup → (k, v) ∈ m →
      getKey (m.foldl (fun acc kv => setKey acc kv.1 kv.2) base) k = some v := by
  intro m
  induction m with
  | nil => intro base _ hmem; cases hmem
  | cons a rest ih =>
    intro base hnd hmem
    obtain ⟨a1, a2⟩ := a
    simp only [List.map_cons, List.nodup_cons] at hnd
    simp only [List.foldl_cons]
    rcases List.mem_cons.mp hmem with heq | htail
    · injection heq with h1 h2
      subst h1; subst h2
      rw [getKey_foldSet_not_mem rest k hnd.1, getKey_setKey_self]
    · exact ih (setKey base a1 a2) hnd.2 htail

/-- The spread fold preserves presence of a key. -/
theorem getKey_foldSet_isSome (m : Obj) (k : String) :
    ∀ base : Obj, (getKey base k).isSome →
      (getKey (m.foldl (fun acc kv => setKey acc kv.1 kv.2) base) k).isSome := by
  induction m with
  | nil => intro base h; exact h
  | cons a rest ih =>
    intro base h
    simp only [List.foldl_cons]
    apply ih
    by_cases hk : k = a.1
    · subst hk; rw [getKey_setKey_self]; rfl
    · rw [getKey_setKey_ne _ _ _ _ hk]; exact h

/-- Retrieval by the just-upserted id finds exactly the upserted point. -/
theorem find?_upsert_self (st : QState) (id : String) (vec : List ℚ) (pl : Obj) :
    (upsertPoint st id vec pl).find? (fun p => idMatches p.id (.str id)) =
      some ⟨id, vec, pl⟩ := by
  unfold upsertPoint
  rw [List.find?_append]
  have hleft : (st.filter (fun p => p.id != id)).find?
      (fun p => idMatches p.id (.str id)) = none := by
    rw [List.find?_eq_none]
    intro x hx
    have := List.of_mem_filter hx
    simp only [bne_iff_ne, ne_eq] at this
    simp [idMatches, this]
  rw [hleft]
  simp [idMatches]

/-! ### Concrete environment used to instantiate hypotheses -/

/-- A concrete external world: embedding always returns the empty vector,
the store is reachable, searches and scrolls return nothing. -/
def env0 : Env where
  embed := fun _ => .ok []
  freshId := "id-1"
  now := "2026-01-01T00:00:00.000Z"
  qdrantErr := none
  searchResult := fun _ _ _ _ _ => []
  scrollResult := fun _ _ _ => []
  collectionName := "semantic_memory"
  model := "text-embedding-3-large"
  dims := 1536
  indexedCount := .null
  segmentsCount := .null
  statusVal := .str "green"

/-! ### Claims -/

/-- Claim C9: createCollection is idempotent create-if-absent: it lists
the existing collections and, when a collection with the configured name
already exists, issues no create call and leaves the collection state
(hence the existing parameters) unchanged. -/
theorem C9_createCollection_createIfAbsent (cols : CollState) (name : String)
    (sz : ℚ) (h : name ∈ cols.map Prod.fst) :
    (QdrantService.createCollection cols name sz).1 = cols ∧
    (∀ n s, Effect.createCollectionCall n s ∉
        (QdrantService.createCollection cols name sz).2) := by
  have hany : cols.any (fun c => c.1 == name) = true := by
    obtain ⟨x, hx, hfst⟩ := List.mem_map.mp h
    exact List.any_eq_true.mpr ⟨x, hx, by simp [hfst]⟩
  unfold QdrantService.createCollection
  rw [if_pos hany]
  refine ⟨rfl, ?_⟩
  intro n s hmem
  simp at hmem

/-- Witness for C9 at a one-collection state where the name exists. -/
theorem C9_witness :
    (QdrantService.createCollection
        [("semantic_memory", ⟨1536, "Cosine"⟩)] "semantic_memory" 1536).1 =
      [("semantic_memory", ⟨1536, "Cosine"⟩)] :=
  (C9_createCollection_createIfAbsent
      [("semantic_memory", ⟨1536, "Cosine"⟩)] "semantic_memory" 1536
      (by simp)).1

/-- Claim C5: a tool name outside the seven-tool catalogue yields the
error-tagged envelope (not an ordinary success body), and no client call
is made: the trace is empty and the store state untouched. -/
theorem C5_unknown_tool (env : Env) (st : QState) (name : String) (args : Obj)
    (h : name ∉ toolNames) :
    callTool env st name args =
      (⟨errBody ("Unknown tool: " ++ name), true⟩, st, []) := by
  have hs : ∀ s, s ∈ toolNames → name ≠ s := fun s hsmem he => h (he ▸ hsmem)
  have h1 := hs "store_memory" (by simp [toolNames])
  have h2 := hs "search_memory" (by simp [toolNames])
  have h3 := hs "delete_memory" (by simp [toolNames])
  have h4 := hs "get_memory" (by simp [toolNames])
  have h5 := hs "list_memories" (by simp [toolNames])
  have h6 := hs "get_stats" (by simp [toolNames])
  have h7 := hs "clear_all_memories" (by simp [toolNames])
  have hinner : callToolInner env st name args =
      (.error ("Unknown tool: " ++ name), st, []) := by
    unfold callToolInner
    split
    all_goals first
      | exact absurd rfl h1
      | exact absurd rfl h2
      | exact absurd rfl h3
      | exact absurd rfl h4
      | exact absurd rfl h5
      | exact absurd rfl h6
      | exact absurd rfl h7
      | rfl
  unfold callTool
  rw [hinner]

/-- Witness for C5 at the concrete unknown name "bogus". -/
theorem C5_witness :
    callTool env0 [] "bogus" [] =
      (⟨errBody ("Unknown tool: " ++ "bogus"), true⟩, [], []) :=
  C5_unknown_tool env0 [] "bogus" [] (by decide)

/-- Claim C2: when the confirm argument is falsy the handler performs no
deletion (no client call at all, state unchanged) and returns an ordinary
success:false body; when confirm is truthy (any truthy value, not only
true) deleteAll is invoked, and with the store reachable every record is
removed. -/
theorem C2_clear_confirm (env : Env) (st : QState) (args : Obj) :
    (truthy (getD args "confirm" .undefined) = false →
      callTool env st "clear_all_memories" args =
        (⟨.obj [("success", .bool false),
                ("message",
                 .str "You must confirm with confirm=true to delete all memories")],
          false⟩, st, [])) ∧
    (truthy (getD args "confirm" .undefined) = true →
      (callTool env st "clear_all_memories" args).2.2 = [Effect.deleteAllCall] ∧
      (env.qdrantErr = none →
        callTool env st "clear_all_memories" args =
          (⟨.obj [("success", .bool true),
                  ("message", .str "All memories have been deleted")],
            false⟩, [], [Effect.deleteAllCall]))) := by
  constructor
  · intro hf
    simp [callTool, callToolInner, hf]
  · intro ht
    unfold callTool callToolInner
    simp only [ht, if_true]
    unfold QdrantService.clearAllMemories
    constructor
    · cases henv : env.qdrantErr <;> simp
    · intro hq
      rw [hq]

/-- Witness for C2: falsy confirm leaves everything untouched, truthy
confirm (here the non-true truthy value 1) invokes deleteAll and empties
a nonempty store. -/
theorem C2_witness :
    (callTool env0 [⟨"a", [], []⟩] "clear_all_memories" [("confirm", .bool false)] =
      (⟨.obj [("success", .bool false),
              ("message",
               .str "You must confirm with confirm=true to delete all memories")],
        false⟩, [⟨"a", [], []⟩], [])) ∧
    (callTool env0 [⟨"a", [], []⟩] "clear_all_memories" [("confirm", .num 1)] =
      (⟨.obj [("success", .bool true),
              ("message", .str "All memories have been deleted")],
        false⟩, [], [Effect.deleteAllCall])) :=
  ⟨(C2_clear_confirm env0 [⟨"a", [], []⟩] [("confirm", .bool false)]).1 (by decide),
   ((C2_clear_confirm env0 [⟨"a", [], []⟩] [("confirm", .num 1)]).2 (by decide)).2 rfl⟩

/-- Claim C6: when retrieve finds no record, get_memory returns an
ordinary (non-error-tagged) success:false body with a not-found message
and touches nothing; for an existing id it returns success:true with the
id and payload of the record. -/
theorem C6_get_memory (env : Env) (st : QState) (args : Obj)
    (hq : env.qdrantErr = none) :
    (st.find? (fun p => idMatches p.id (getD args "id" .undefined)) = none →
      callTool env st "get_memory" args =
        (⟨.obj [("success", .bool false),
                ("message",
                 .str ("Memory " ++ showVal (getD args "id" .undefined) ++ " not found"))],
          false⟩, st, [Effect.retrieveCall (getD args "id" .undefined)])) ∧
    (∀ p, st.find? (fun q => idMatches q.id (getD args "id" .undefined)) = some p →
      callTool env st "get_memory" args =
        (⟨.obj [("success", .bool true),
                ("memory", .obj [("id", .str p.id), ("payload", .obj p.payload)])],
          false⟩, st, [Effect.retrieveCall (getD args "id" .undefined)])) := by
  constructor
  · intro hnone
    simp [callTool, callToolInner, QdrantService.getMemory, hq, hnone]
  · intro p hp
    simp [callTool, callToolInner, QdrantService.getMemory, hq, hp]

/-- Witness for C6: a never-stored id yields success:false without an
error tag, and a stored id yields its payload. -/
theorem C6_witness :
    (callTool env0 [] "get_memory" [("id", .str "missing")] =
      (⟨.obj [("success", .bool false),
              ("message", .str ("Memory " ++ showVal (.str "missing") ++ " not found"))],
        false⟩, [], [Effect.retrieveCall (.str "missing")])) ∧
    (callTool env0 [⟨"a", [], [("content", .str "c")]⟩] "get_memory" [("id", .str "a")] =
      (⟨.obj [("success", .bool true),
              ("memory", .obj [("id", .str "a"),
                               ("payload", .obj [("content", .str "c")])])],
        false⟩, [⟨"a", [], [("content", .str "c")]⟩], [Effect.retrieveCall (.str "a")])) :=
  ⟨(C6_get_memory env0 [] [("id", .str "missing")] rfl).1 rfl,
   (C6_get_memory env0 [⟨"a", [], [("content", .str "c")]⟩] [("id", .str "a")] rfl).2
     ⟨"a", [], [("content", .str "c")]⟩ rfl⟩

/-- For strings of at most 100 characters the truncation is the identity. -/
theorem jsTruncate_of_le (s : String) (h : s.length ≤ 100) : jsTruncate s = s := by
  unfold jsTruncate
  rw [if_neg (by omega)]
  rw [String.append_empty]
  have hlen : s.toList.length ≤ 100 := h
  rw [List.take_of_length_le hlen]
  rfl

/-- For longer strings the truncation keeps the first 100 characters and
appends the ellipsis. -/
theorem jsTruncate_of_gt (s : String) (h : 100 < s.length) :
    jsTruncate s = String.mk (s.toList.take 100) ++ "..." := by
  unfold jsTruncate
  rw [if_pos h]

/-- Claim C7: the content echoed by a successful store_memory response is
the original content when it has at most 100 characters, and the first
100 characters followed by the ellipsis otherwise; the response also
carries the minted id and the supplied metadata. -/
theorem C7_store_truncation (env : Env) (st : QState) (content : String)
    (args : Obj) (vec : List ℚ)
    (hc : getD args "content" .undefined = .str content)
    (he : env.embed (.str content) = .ok vec)
    (hq : env.qdrantErr = none) :
    (callTool env st "store_memory" args).1.isError = false ∧
    getField (callTool env st "store_memory" args).1.body "id" =
      some (.str env.freshId) ∧
    getField (callTool env st "store_memory" args).1.body "metadata" =
      some (jsDefault (getD args "metadata" .undefined) (.obj [])) ∧
    (content.length ≤ 100 →
      getField (callTool env st "store_memory" args).1.body "content" =
        some (.str content)) ∧
    (100 < content.length →
      getField (callTool env st "store_memory" args).1.body "content" =
        some (.str (String.mk (content.toList.take 100) ++ "..."))) := by
  have hbody : callTool env st "store_memory" args =
      (⟨.obj [("success", .bool true),
              ("message", .str "Memory stored successfully"),
              ("id", .str env.freshId), ("content", .str (jsTruncate content)),
              ("metadata", jsDefault (getD args "metadata" .undefined) (.obj []))],
        false⟩,
       upsertPoint st env.freshId vec
         (spreadInto (setKey (setKey [] "content" (.str content)) "timestamp"
            (.str env.now)) (jsDefault (getD args "metadata" .undefined) (.obj []))),
       [Effect.embedCall (.str content),
        Effect.upsertCall env.freshId vec
          (spreadInto (setKey (setKey [] "content" (.str content)) "timestamp"
             (.str env.now)) (jsDefault (getD args "metadata" .undefined) (.obj [])))]) := by
    simp [callTool, callToolInner, hc, he, hq, QdrantService.storeMemory, truncVal]
  rw [hbody]
  refine ⟨rfl, by simp [getField, getKey], by simp [getField, getKey], ?_, ?_⟩
  · intro hle
    simp [getField, getKey, jsTruncate_of_le content hle]
  · intro hgt
    simp [getField, getKey, jsTruncate_of_gt content hgt]

/-- Witness for C7 at a short content string. -/
theorem C7_witness :
    getField (callTool env0 [] "store_memory"
        [("content", .str "hello")]).1.body "content" = some (.str "hello") :=
  (C7_store_truncation env0 [] "hello" [("content", .str "hello")] [] rfl rfl rfl).2.2.2.1
    (by decide)

/-- Claim C1: store_memory followed by get_memory with the returned id
yields a record whose payload has the original content (when no metadata
key collides with it), always has a timestamp entry, and contains every
supplied metadata key with its own value — so a metadata key named
content or timestamp overwrites the reserved value, since the metadata
spread comes last. -/
theorem C1_store_then_get (env : Env) (st : QState) (content : String)
    (metadata : Obj) (vec : List ℚ)
    (he : env.embed (.str content) = .ok vec)
    (hq : env.qdrantErr = none)
    (hnd : (metadata.map Prod.fst).Nodup) :
    ∃ payload : Obj,
      getField (callTool env st "store_memory"
          [("content", .str content), ("metadata", .obj metadata)]).1.body "id" =
        some (.str env.freshId) ∧
      callTool env
          (callTool env st "store_memory"
            [("content", .str content), ("metadata", .obj metadata)]).2.1
          "get_memory" [("id", .str env.freshId)] =
        (⟨.obj [("success", .bool true),
                ("memory", .obj [("id", .str env.freshId), ("payload", .obj payload)])],
          false⟩,
         (callTool env st "store_memory"
            [("content", .str content), ("metadata", .obj metadata)]).2.1,
         [Effect.retrieveCall (.str env.freshId)]) ∧
      ("content" ∉ metadata.map Prod.fst →
        getKey payload "content" = some (.str content)) ∧
      (getKey payload "timestamp").isSome ∧
      (∀ k v, (k, v) ∈ metadata → getKey payload k = some v) := by
  have hbase :
      getKey (setKey (setKey [] "content" (.str content)) "timestamp"
        (.str env.now)) "content" = some (.str content) := by
    rw [getKey_setKey_ne _ _ _ _ (by decide), getKey_setKey_self]
  refine ⟨spreadInto (setKey (setKey [] "content" (.str content)) "timestamp"
      (.str env.now)) (.obj metadata), ?_, ?_, ?_, ?_, ?_⟩
  · simp [callTool, callToolInner, getD, getKey, he, hq,
          QdrantService.storeMemory, truncVal, getField]
  · have hstore : (callTool env st "store_memory"
        [("content", .str content), ("metadata", .obj metadata)]).2.1 =
        upsertPoint st env.freshId vec
          (spreadInto (setKey (setKey [] "content" (.str content)) "timestamp"
            (.str env.now)) (.obj metadata)) := by
      simp [callTool, callToolInner, getD, getKey, he, hq,
            QdrantService.storeMemory, truncVal, jsDefault]
    rw [hstore]
    simp [callTool, callToolInner, getD, getKey, hq,
          QdrantService.getMemory, find?_upsert_self]
  · intro hnotin
    simp only [spreadInto]
    rw [getKey_foldSet_not_mem metadata "content" hnotin]
    exact hbase
  · simp only [spreadInto]
    apply getKey_foldSet_isSome
    rw [getKey_setKey_self]
    rfl
  · intro k v hmem
    simp only [spreadInto]
    exact getKey_foldSet_mem k v metadata _ hnd hmem

/-- Witness for C1 with content "hello" and metadata tags:auth. -/
theorem C1_witness :
    ∃ payload : Obj,
      getField (callTool env0 [] "store_memory"
          [("content", .str "hello"),
           ("metadata", .obj [("tags", .str "auth")])]).1.body "id" =
        some (.str env0.freshId) ∧
      callTool env0
          (callTool env0 [] "store_memory"
            [("content", .str "hello"),
             ("metadata", .obj [("tags", .str "auth")])]).2.1
          "get_memory" [("id", .str env0.freshId)] =
        (⟨.obj [("success", .bool true),
                ("memory", .obj [("id", .str env0.freshId), ("payload", .obj payload)])],
          false⟩,
         (callTool env0 [] "store_memory"
            [("content", .str "hello"),
             ("metadata", .obj [("tags", .str "auth")])]).2.1,
         [Effect.retrieveCall (.str env0.freshId)]) ∧
      ("content" ∉ ([("tags", Value.str "auth")] : Obj).map Prod.fst →
        getKey payload "content" = some (.str "hello")) ∧
      (getKey payload "timestamp").isSome ∧
      (∀ k v, (k, v) ∈ ([("tags", Value.str "auth")] : Obj) →
        getKey payload k = some v) :=
  C1_store_then_get env0 [] "hello" [("tags", .str "auth")] [] rfl rfl (by simp)

/-- Claim C8: search_memory embeds the query and hands the resulting
vector to the store query together with limit (default 5 when omitted),
threshold (default 0.7 when omitted) and the filter, all unchanged — the
trace records exactly these values — and an empty result set above the
threshold produces a success:true response with an empty results list,
not an error. -/
theorem C8_search_passthrough (env : Env) (st : QState) (args : Obj)
    (vec : List ℚ)
    (he : env.embed (getD args "query" .undefined) = .ok vec)
    (hq : env.qdrantErr = none) :
    (callTool env st "search_memory" args).2.2 =
      [Effect.embedCall (getD args "query" .undefined),
       Effect.searchCall vec
         (jsDefault (getD args "limit" .undefined) (.num 5))
         (jsDefault (getD args "threshold" .undefined) (.num (7/10)))
         (getD args "filter" .undefined)] ∧
    (getKey args "limit" = none →
      jsDefault (getD args "limit" .undefined) (.num 5) = .num 5) ∧
    (getKey args "threshold" = none →
      jsDefault (getD args "threshold" .undefined) (.num (7/10)) = .num (7/10)) ∧
    (env.searchResult st vec
        (jsDefault (getD args "limit" .undefined) (.num 5))
        (jsDefault (getD args "threshold" .undefined) (.num (7/10)))
        (getD args "filter" .undefined) = [] →
      callTool env st "search_memory" args =
        (⟨.obj [("success", .bool true), ("query", getD args "query" .undefined),
                ("results_count", .num 0), ("results", .arr [])], false⟩,
         st,
         [Effect.embedCall (getD args "query" .undefined),
          Effect.searchCall vec
            (jsDefault (getD args "limit" .undefined) (.num 5))
            (jsDefault (getD args "threshold" .undefined) (.num (7/10)))
            (getD args "filter" .undefined)])) := by
  refine ⟨?_, ?_, ?_, ?_⟩
  · simp [callTool, callToolInner, he, hq, QdrantService.searchSimilar]
  · intro hnone; simp [getD, hnone, jsDefault]
  · intro hnone; simp [getD, hnone, jsDefault]
  · intro hempty
    simp [callTool, callToolInner, he, hq, QdrantService.searchSimilar, hempty]

/-- Witness for C8: a query over the empty store returns success with an
empty results list, and the trace carries the defaults 5 and 0.7. -/
theorem C8_witness :
    (callTool env0 [] "search_memory" [("query", .str "q")]).2.2 =
      [Effect.embedCall (getD [("query", Value.str "q")] "query" .undefined),
       Effect.searchCall []
         (jsDefault (getD [("query", Value.str "q")] "limit" .undefined) (.num 5))
         (jsDefault (getD [("query", Value.str "q")] "threshold" .undefined)
           (.num (7/10)))
         (getD [("query", Value.str "q")] "filter" .undefined)] ∧
    callTool env0 [] "search_memory" [("query", .str "q")] =
      (⟨.obj [("success", .bool true),
              ("query", getD [("query", Value.str "q")] "query" .undefined),
              ("results_count", .num 0), ("results", .arr [])], false⟩,
       [],
       [Effect.embedCall (getD [("query", Value.str "q")] "query" .undefined),
        Effect.searchCall []
          (jsDefault (getD [("query", Value.str "q")] "limit" .undefined) (.num 5))
          (jsDefault (getD [("query", Value.str "q")] "threshold" .undefined)
            (.num (7/10)))
          (getD [("query", Value.str "q")] "filter" .undefined)]) :=
  ⟨(C8_search_passthrough env0 [] [("query", .str "q")] [] rfl rfl).1,
   (C8_search_passthrough env0 [] [("query", .str "q")] [] rfl rfl).2.2.2 rfl⟩

/-- Claim C10: in successful search_memory and list_memories responses
the results are exactly the mapped formatting of the store results, and
each formatted item carries the entire stored payload as its metadata
field — reserved content and timestamp keys included — while its content
(and, for list_memories, timestamp) fields are projections of that same
payload. -/
theorem C10_metadata_is_payload (env : Env) (st : QState) (args : Obj)
    (vec : List ℚ)
    (he : env.embed (getD args "query" .undefined) = .ok vec)
    (hq : env.qdrantErr = none) :
    (∀ sp : ScoredPoint,
      getField (formatSearchItem sp) "metadata" = some (.obj sp.payload) ∧
      getField (formatSearchItem sp) "content" =
        some (getD sp.payload "content" .undefined)) ∧
    getField (callTool env st "search_memory" args).1.body "results" =
      some (.arr ((env.searchResult st vec
        (jsDefault (getD args "limit" .undefined) (.num 5))
        (jsDefault (getD args "threshold" .undefined) (.num (7/10)))
        (getD args "filter" .undefined)).map formatSearchItem)) ∧
    (∀ p : Point,
      getField (formatListItem p) "metadata" = some (.obj p.payload) ∧
      getField (formatListItem p) "content" =
        some (getD p.payload "content" .undefined) ∧
      getField (formatListItem p) "timestamp" =
        some (getD p.payload "timestamp" .undefined)) ∧
    getField (callTool env st "list_memories" args).1.body "memories" =
      some (.arr ((env.scrollResult st
        (jsDefault (getD args "limit" .undefined) (.num 10))
        (getD args "offset" .undefined)).map formatListItem)) := by
  refine ⟨?_, ?_, ?_, ?_⟩
  · intro sp
    exact ⟨by simp [formatSearchItem, getField, getKey],
           by simp [formatSearchItem, getField, getKey]⟩
  · simp [callTool, callToolInner, he, hq, QdrantService.searchSimilar,
          getField, getKey]
  · intro p
    refine ⟨?_, ?_, ?_⟩ <;> simp [formatListItem, getField, getKey]
  · simp [callTool, callToolInner, hq, QdrantService.listMemories,
          getField, getKey]

/-- Witness for C10 on a store whose search and scroll return one point
carrying a payload with reserved keys. -/
theorem C10_witness :
    getField (formatSearchItem
        ⟨.str "a", 1, [("content", .str "c"), ("timestamp", .str "t"),
                       ("tags", .str "auth")]⟩) "metadata" =
      some (.obj [("content", .str "c"), ("timestamp", .str "t"),
                  ("tags", .str "auth")]) :=
  ((C10_metadata_is_payload env0 [] [] [] rfl rfl).1
    ⟨.str "a", 1, [("content", .str "c"), ("timestamp", .str "t"),
                   ("tags", .str "auth")]⟩).1

/-- Every value produced by the try block carries a boolean success
field: each of the eight switch branches builds its body with success as
the first key. -/
theorem success_field_of_ok (env : Env) (st : QState) (name : String)
    (args : Obj) (body : Value) (st' : QState) (tr : List Effect)
    (h : callToolInner env st name args = (.ok body, st', tr)) :
    ∃ b, getField body "success" = some (.bool b) := by
  unfold callToolInner at h
  split at h
  all_goals try dsimp only at h
  all_goals repeat' split at h
  all_goals
    (injection h with h1 h2
     first
       | exact Except.noConfusion h1
       | (injection h1 with h3
          subst h3
          simp [getField, getKey]))

/-- Claim C4: every call yields a well-formed envelope with a boolean
success field; when the envelope is error-tagged its body is exactly the
catch-block form success:false plus the error message; and any exception
raised inside the switch surfaces as that error envelope carrying its
message. -/
theorem C4_catch_envelope (env : Env) (st : QState) (name : String) (args : Obj) :
    (∃ b, getField (callTool env st name args).1.body "success" =
      some (.bool b)) ∧
    ((callTool env st name args).1.isError = true →
      ∃ m, (callTool env st name args).1.body = errBody m) ∧
    (∀ m, (callToolInner env st name args).1 = .error m →
      (callTool env st name args).1 = ⟨errBody m, true⟩) := by
  rcases hc : callToolInner env st name args with ⟨res, st', tr⟩
  cases res with
  | error m =>
    refine ⟨⟨false, ?_⟩, ?_, ?_⟩
    · simp [callTool, hc, errBody, getField, getKey]
    · intro _
      exact ⟨m, by simp [callTool, hc]⟩
    · intro m' hm'
      have hmm : m = m' := by simpa using hm'
      subst hmm
      simp [callTool, hc]
  | ok body =>
    refine ⟨?_, ?_, ?_⟩
    · have hb := success_field_of_ok env st name args body st' tr hc
      simpa [callTool, hc] using hb
    · intro hisErr
      simp [callTool, hc] at hisErr
    · intro m hm
      exact absurd hm (by simp)

/-- Witness for C4: the unknown-tool exception surfaces as the
error-tagged envelope carrying its message. -/
theorem C4_witness :
    (callTool env0 [] "nope" []).1 =
      ⟨errBody ("Unknown tool: " ++ "nope"), true⟩ :=
  (C4_catch_envelope env0 [] "nope" []).2.2 ("Unknown tool: " ++ "nope") rfl

/-- Counterexample to claim C3 as stated: a store_memory invocation with
no arguments at all — the required content field missing — is not
rejected at the dispatch boundary: the embedding client is invoked (with
the undefined content), and the store upsert is even reached, writing a
record whose content is undefined. -/
theorem C3_counterexample :
    Effect.embedCall .undefined ∈ (callTool env0 [] "store_memory" []).2.2 ∧
    (callTool env0 [] "store_memory" []).2.1 =
      [⟨"id-1", [],
        [("content", .undefined),
         ("timestamp", .str "2026-01-01T00:00:00.000Z")]⟩] := by
  constructor
  · have htr : (callTool env0 [] "store_memory" []).2.2 =
        [Effect.embedCall .undefined,
         Effect.upsertCall "id-1" []
           [("content", .undefined),
            ("timestamp", .str "2026-01-01T00:00:00.000Z")]] := rfl
    rw [htr]
    exact List.mem_cons_self _ _
  · rfl

/-- Amended claim C3: no presence validation happens at the dispatch
boundary; a store_memory invocation whose content is missing (or
undefined) proceeds into the handler and the first client call is the
embedding client applied to the undefined content — the invocation is
never rejected by the dispatcher itself, and failures surface only as
downstream client errors. -/
theorem C3_no_boundary_validation (env : Env) (st : QState) (args : Obj)
    (h : getD args "content" .undefined = .undefined) :
    (callTool env st "store_memory" args).2.2.head? =
      some (Effect.embedCall .undefined) := by
  rcases henv : env.embed Value.undefined with m | v
  · simp [callTool, callToolInner, h, henv]
  · rcases hqe : env.qdrantErr with _ | m
    · simp [callTool, callToolInner, h, henv, hqe,
            QdrantService.storeMemory, truncVal]
    · simp [callTool, callToolInner, h, henv, hqe, QdrantService.storeMemory]

/-- Witness for the amended C3 at the concrete empty argument object. -/
theorem C3_witness :
    (callTool env0 [] "store_memory" []).2.2.head? =
      some (Effect.embedCall .undefined) :=
  C3_no_boundary_validation env0 [] [] rfl

end MCPQ
